import Mathlib

/-!
Verification development for the crates_io_analyzer repository
(src/crate_inspector.py).  Byte strings are modelled as `List Nat`
(one entry per byte), file names and hashes as `String`.  External
effects (the SHA-1 digest of `hashlib`, the `git cat-file` object
lookup, network and subprocess outcomes) enter as explicit function
or data parameters; everything the repository itself computes is
embedded as executable Lean definitions.
-/

namespace CrateInspector

/-- ASCII bytes of a string literal, as Python `str.encode()` produces for
ASCII text (`Git.hash_blob` builds its header from such literals). -/
def asciiBytes (s : String) : List Nat :=
  s.data.map Char.toNat

/-- Decimal ASCII bytes of a natural number, as Python
`str(len(data)).encode()` produces in `Git.hash_blob.hashit`. -/
def decBytes (n : Nat) : List Nat :=
  (Nat.toDigits 10 n).map Char.toNat

/-- Header `b'blob ' + str(len(data)).encode() + b'\0'` prepended by
`Git.hash_blob.hashit` (src/crate_inspector.py lines 187-189). -/
def blobStuff (n : Nat) : List Nat :=
  asciiBytes "blob " ++ decBytes n ++ [0]

/-- One candidate digest: `hashlib.sha1(stuff + data).hexdigest()` with the
digest function itself (external `hashlib`) passed in as `sha1`. -/
def hashit (sha1 : List Nat → String) (d : List Nat) : String :=
  sha1 (blobStuff d.length ++ d)

/-- Python `b'\r\n' in data`: true iff bytes 13,10 occur adjacently. -/
def containsCRLF : List Nat → Bool
  | [] => false
  | 13 :: 10 :: _ => true
  | _ :: rest => containsCRLF rest

/-- Python `data.replace(b'\r\n', b'\n')`: left-to-right, non-overlapping
replacement of each 13,10 pair by a single 10. -/
def replaceCRLF : List Nat → List Nat
  | [] => []
  | 13 :: 10 :: rest => 10 :: replaceCRLF rest
  | b :: rest => b :: replaceCRLF rest

/-- Embedding of `Git.hash_blob` (src/crate_inspector.py lines 174-195):
hash the raw bytes, and, only when the bytes contain a CRLF pair, also the
CRLF-normalized bytes, raw hash first. -/
def hash_blob (sha1 : List Nat → String) (data : List Nat) : List String :=
  let hashes := [hashit sha1 data]
  if containsCRLF data then hashes ++ [hashit sha1 (replaceCRLF data)]
  else hashes

/-- Test a list for a literal head: `some rest` when `pat` heads `cs`,
otherwise `none` (helper for the regex embeddings below). -/
def dropLit : List Char → List Char → Option (List Char)
  | [], cs => some cs
  | _ :: _, [] => none
  | p :: ps, c :: cs => if c == p then dropLit ps cs else none

/-- Whether `pat` heads `cs`. -/
def startsLit (pat cs : List Char) : Bool :=
  (dropLit pat cs).isSome

/-- Whether `pat` ends `cs`. -/
def endsLit (pat cs : List Char) : Bool :=
  startsLit pat.reverse cs.reverse

/-- Python `re.match('.*\.rs$', name)` as used by `Verifier.search_blobs`
via `CrateTarball.examine_files`: `.` does not match a newline and `$` also
matches just before one trailing newline, so the name (with one trailing
newline removed, if present) must be newline-free and end in `.rs`. -/
def rsPattern (n : String) : Bool :=
  let cs := n.data
  let core := if endsLit ['\n'] cs then cs.dropLast else cs
  !(core.contains '\n') && endsLit ".rs".data core

/-- Embedding of `CrateTarball.examine_files` (src/crate_inspector.py lines
91-102) at the pattern `'.*\.rs$'`: the archive members whose names match,
in archive order, each as (name, content bytes). -/
def examine_files (members : List (String × List Nat)) : List (String × List Nat) :=
  members.filter (fun m => rsPattern m.1)

/-- Inner loop of `Verifier.search_blobs` (lines 361-365): a file counts as
present when at least one of its candidate hashes resolves via the
`blob_exists` query `ex`. -/
def blobFound (sha1 : List Nat → String) (ex : String → Bool) (data : List Nat) : Bool :=
  (hash_blob sha1 data).any ex

/-- Embedding of `Verifier.search_blobs` (src/crate_inspector.py lines
355-374): scan every matching member, counting files checked and files
unmatched, and return `(file_count, files_unmatched, files_unmatched == 0)`.
`sha1` is the external digest and `ex` the repository's `blob_exists`. -/
def search_blobs (sha1 : List Nat → String) (ex : String → Bool)
    (members : List (String × List Nat)) : Nat × Nat × Bool :=
  let counts := (examine_files members).foldl
    (fun acc f => (acc.1 + 1, if blobFound sha1 ex f.2 then acc.2 else acc.2 + 1))
    (0, 0)
  (counts.1, counts.2, counts.2 == 0)

/-- Body of `Verifier.match_tags.try_match` (src/crate_inspector.py lines
313-317): membership of one candidate tag in the tag list. -/
def try_match (tags : List String) (tag : String) : Bool :=
  tags.contains tag

/-- Embedding of the candidate-or-chain of `Verifier.match_tags`
(src/crate_inspector.py lines 319-322), with `nn` the crate name and `vv`
the crate version: Python `or` short-circuits left to right. -/
def match_tags (nn vv : String) (tags : List String) : Bool :=
  try_match tags vv || try_match tags ("v" ++ vv) ||
    try_match tags (nn ++ "-" ++ vv) || try_match tags (nn ++ "-v" ++ vv)

/-- Candidate tag names in the source's fixed priority order: bare version,
`v` + version, name-version, name-v-version. -/
def candidateTags (nn vv : String) : List String :=
  [vv, "v" ++ vv, nn ++ "-" ++ vv, nn ++ "-v" ++ vv]

/-- Index of the candidate at which the short-circuiting or-chain of
`match_tags` stops (`try_match` logs, so the stopping point is observable);
`none` when no candidate is in the tag list. -/
def matchedCandidateIdx (nn vv : String) (tags : List String) : Option Nat :=
  if try_match tags vv then some 0
  else if try_match tags ("v" ++ vv) then some 1
  else if try_match tags (nn ++ "-" ++ vv) then some 2
  else if try_match tags (nn ++ "-v" ++ vv) then some 3
  else none

/-- Python `str.split(sep)` for a single-character separator, on char
lists (used to embed the `semver` library's strict parse). -/
def splitOnChar (sep : Char) : List Char → List (List Char)
  | [] => [[]]
  | c :: rest =>
    let r := splitOnChar sep rest
    if c == sep then [] :: r
    else
      match r with
      | h :: t => (c :: h) :: t
      | [] => [[c]]

/-- Rejoin the pieces after the first separator (the `semver` grammar cuts
only at the first `-` and first `+`; later ones belong to the piece). -/
def joinChar (sep : Char) : List (List Char) → List Char
  | [] => []
  | [x] => x
  | x :: xs => x ++ sep :: joinChar sep xs

/-- Decimal value of an all-digit char list, as Python `int()`. -/
def digitsToNat (cs : List Char) : Nat :=
  cs.foldl (fun a c => a * 10 + (c.toNat - 48)) 0

/-- Numeric component of the semver grammar: `0|[1-9]\d*` (no leading
zeros). -/
def validNum : List Char → Bool
  | [] => false
  | c :: rest => c.isDigit && rest.all Char.isDigit && (c != '0' || rest.isEmpty)

/-- Character class `[0-9a-zA-Z-]` of semver prerelease/build identifiers. -/
def identChar (c : Char) : Bool :=
  c.isAlphanum || c == '-'

/-- One prerelease identifier: `0|[1-9]\d*|\d*[a-zA-Z-][0-9a-zA-Z-]*`. -/
def validPreIdent (cs : List Char) : Bool :=
  match cs with
  | [] => false
  | _ => if cs.all Char.isDigit then validNum cs else cs.all identChar

/-- Dot-separated prerelease identifiers. -/
def validPre (cs : List Char) : Bool :=
  (splitOnChar '.' cs).all validPreIdent

/-- One build identifier: `[0-9a-zA-Z-]+`. -/
def validBuildIdent (cs : List Char) : Bool :=
  !cs.isEmpty && cs.all identChar

/-- Dot-separated build identifiers. -/
def validBuild (cs : List Char) : Bool :=
  (splitOnChar '.' cs).all validBuildIdent

/-- Parsed form of one version, mirroring `semver.VersionInfo`. -/
structure SemVerInfo where
  major : Nat
  minor : Nat
  patch : Nat
  pre : Option String
  build : Option String
deriving DecidableEq

/-- Embedding of `semver.VersionInfo.parse` (the external `semver` library
used by `try_semver`, src/crate_inspector.py line 45): strict semver 2.0
grammar `major.minor.patch[-prerelease][+build]`. -/
def parseSemVer (s : String) : Option SemVerInfo :=
  let cs := s.data
  let coreBuild :=
    match splitOnChar '+' cs with
    | [c] => (c, (none : Option (List Char)))
    | c :: rest => (c, some (joinChar '+' rest))
    | [] => ([], none)
  let mmpPre :=
    match splitOnChar '-' coreBuild.1 with
    | [m] => (m, (none : Option (List Char)))
    | m :: rest => (m, some (joinChar '-' rest))
    | [] => ([], none)
  match splitOnChar '.' mmpPre.1 with
  | [ma, mi, pa] =>
    if validNum ma && validNum mi && validNum pa
        && (match mmpPre.2 with | none => true | some p => validPre p)
        && (match coreBuild.2 with | none => true | some b => validBuild b) then
      some ⟨digitsToNat ma, digitsToNat mi, digitsToNat pa,
            mmpPre.2.map String.mk, coreBuild.2.map String.mk⟩
    else none
  | _ => none

/-- Placeholder `semver.VersionInfo.parse('0.0.0')` assigned to strings
that do not parse (src/crate_inspector.py line 39). -/
def SEMVER_PLACEHOLDER : SemVerInfo :=
  ⟨0, 0, 0, none, none⟩

/-- Embedding of `try_semver` (src/crate_inspector.py lines 42-53): parse,
or fall back to the placeholder on any parse failure. -/
def try_semver (s : String) : SemVerInfo :=
  (parseSemVer s).getD SEMVER_PLACEHOLDER

/-- Python code-point-lexicographic string comparison (strict less-than),
on char lists. -/
def charListLt : List Char → List Char → Bool
  | [], [] => false
  | [], _ :: _ => true
  | _ :: _, [] => false
  | c :: cs, d :: ds =>
    if c.toNat < d.toNat then true
    else if d.toNat < c.toNat then false
    else charListLt cs ds

/-- Value the `semver` comparison gives one prerelease identifier: numeric
identifiers compare as integers and are lower than alphanumeric ones. -/
def numericVal (cs : List Char) : Option Nat :=
  match cs with
  | [] => none
  | _ => if cs.all Char.isDigit then some (digitsToNat cs) else none

/-- Comparison of two prerelease identifiers per the semver 2.0 precedence
rules implemented by the `semver` library. -/
def cmpPreIdent (a b : List Char) : Ordering :=
  match numericVal a, numericVal b with
  | some x, some y => compare x y
  | some _, none => Ordering.lt
  | none, some _ => Ordering.gt
  | none, none =>
    if charListLt a b then Ordering.lt
    else if charListLt b a then Ordering.gt
    else Ordering.eq

/-- Elementwise comparison of prerelease identifier lists; a strict prefix
compares lower. -/
def cmpPreList : List (List Char) → List (List Char) → Ordering
  | [], [] => Ordering.eq
  | [], _ :: _ => Ordering.lt
  | _ :: _, [] => Ordering.gt
  | x :: xs, y :: ys =>
    match cmpPreIdent x y with
    | Ordering.eq => cmpPreList xs ys
    | o => o

/-- Prerelease comparison: no prerelease outranks any prerelease. -/
def cmpPre : Option String → Option String → Ordering
  | none, none => Ordering.eq
  | none, some _ => Ordering.gt
  | some _, none => Ordering.lt
  | some p, some q => cmpPreList (splitOnChar '.' p.data) (splitOnChar '.' q.data)

/-- Embedding of `semver.VersionInfo` precedence (build metadata ignored),
as used when Python sorts the `(semver, string)` tuples. -/
def cmpSemVer (a b : SemVerInfo) : Ordering :=
  (compare a.major b.major).then
    ((compare a.minor b.minor).then
      ((compare a.patch b.patch).then (cmpPre a.pre b.pre)))

/-- Python tuple `<` on `(VersionInfo, str)` pairs: version precedence
first, then code-point string comparison on ties. -/
def versionPairLt (a b : SemVerInfo × String) : Bool :=
  match cmpSemVer a.1 b.1 with
  | Ordering.lt => true
  | Ordering.gt => false
  | Ordering.eq => charListLt a.2.data b.2.data

/-- Embedding of `latest_version` (src/crate_inspector.py lines 56-63):
`sorted(vlist, reverse=True)[0][1]`.  Python's sort is stable, so the head
of the reverse-sorted list is the first maximal element of the input; the
fold computes exactly that element.  The empty list raises `IndexError`
(`vlist[0]`), modelled as `none`. -/
def latest_version : List (SemVerInfo × String) → Option String
  | [] => none
  | v :: vs =>
    some ((vs.foldl (fun best x => if versionPairLt best x then x else best) v).2)

/-- The resolver as composed in `CratesDbDump.load_versions` and
`do_verify`: pair every raw string with its `try_semver` parse, then take
`latest_version`. -/
def resolveLatest (ss : List String) : Option String :=
  latest_version (ss.map (fun s => (try_semver s, s)))

/-- Outcome of the artifact fetch in `download_crate` / `Verifier.download`
(src/crate_inspector.py lines 66-75 and 270-293): success, HTTP 403
(returns `None`, so `Verifier.download` returns `False`), or any other
fetch failure (the exception is re-raised). -/
inductive DlResult
  | success
  | denied
  | fatal
deriving DecidableEq

/-- Exceptions that escape `do_verify` and abort the whole run (`main`
wraps `do_verify` in no handler). -/
inductive Fatal
  | downloadFailed
  | archiveFailed
deriving DecidableEq

/-- Terminal per-package statuses of `do_verify`
(src/crate_inspector.py lines 391-423), named as in the specification. -/
inductive Outcome
  | urlMissing
  | fetchDenied
  | blobsAllPresentShallow
  | blobsAllPresentFull
  | blobsMissingFull
  | cloneFailed
deriving DecidableEq

/-- Environment of one `do_verify` call: the outcome of every external
effect the code consults, in program order.  `tagMatched` is the value
`Verifier.match_tags` would return when tag reading succeeds; `do_verify`
calls `match_tags` but ignores that value (line 412). -/
structure Env where
  urlValid : Bool
  download : DlResult
  archiveOk : Bool
  commitMeta : Bool
  shallowGitOk : Bool
  tagsReadOk : Bool
  tagMatched : Bool
  blobsShallowAll : Bool
  fullCloneOk : Bool
  blobsFullAll : Bool
deriving DecidableEq

/-- Record of one `do_verify` call: its terminal status, how many times a
git-level shallow clone was started (`Git.clone_shallow`), and how many
times the full-clone fallback (`Verifier.clone_full`) was invoked. -/
structure Trace where
  outcome : Outcome
  shallowGitCalls : Nat
  fullCloneCalls : Nat
deriving DecidableEq

/-- Whether the shallow try-block of `do_verify` (lines 410-415) completes
without raising: `Verifier.clone_shallow` needs the commit metadata and the
git shallow clone; `match_tags` raises a `NameError` when `get_tags` fails
(its handler leaves `tags` unbound) but succeeds for either match result;
`search_blobs` returning `False` raises to force the fallback. -/
def shallowPhase (e : Env) : Bool :=
  e.commitMeta && e.shallowGitOk && e.tagsReadOk && e.blobsShallowAll

/-- Embedding of `do_verify` (src/crate_inspector.py lines 391-423).
The URL check and the download run outside any handler: a `False` from
either returns for this package only, while a raised exception (non-403
fetch failure, un-parseable tarball) propagates as `Fatal`.  The shallow
try-block falls back to `Verifier.clone_full` on any failure; the fallback
ignores the second `search_blobs` result (its log decides
blobs-all-present versus blobs-missing) and a failed full clone ends the
package quietly. -/
def do_verify (e : Env) : Except Fatal Trace :=
  if !e.urlValid then Except.ok ⟨Outcome.urlMissing, 0, 0⟩
  else
    match e.download with
    | DlResult.fatal => Except.error Fatal.downloadFailed
    | DlResult.denied => Except.ok ⟨Outcome.fetchDenied, 0, 0⟩
    | DlResult.success =>
      if !e.archiveOk then Except.error Fatal.archiveFailed
      else
        let sCalls : Nat := if e.commitMeta then 1 else 0
        if shallowPhase e then Except.ok ⟨Outcome.blobsAllPresentShallow, sCalls, 0⟩
        else if e.fullCloneOk then
          Except.ok ⟨(if e.blobsFullAll then Outcome.blobsAllPresentFull
                      else Outcome.blobsMissingFull), sCalls, 1⟩
        else Except.ok ⟨Outcome.cloneFailed, sCalls, 1⟩

/-- The batch loop of `main` (src/crate_inspector.py lines 450-457): one
`do_verify` per package in order, with no handler, so the first `Fatal`
aborts the remaining packages. -/
def runAll : List Env → Except Fatal (List Outcome)
  | [] => Except.ok []
  | e :: rest =>
    match do_verify e with
    | Except.error f => Except.error f
    | Except.ok t =>
      match runAll rest with
      | Except.error f => Except.error f
      | Except.ok l => Except.ok (t.outcome :: l)

/-- Character class `[\w\-_]` of `Git.fixup_url`'s regex (Python `\w`
restricted to its ASCII letters/digits/underscore, plus the class's
hyphen). -/
def isWordChar (c : Char) : Bool :=
  c.isAlphanum || c == '_' || c == '-'

/-- Literal head `https://github.com/` of `Git.fixup_url`'s regex. -/
def ghPre : List Char :=
  "https://github.com/".data

/-- Literal `/tree/` that must follow the owner/repo segments. -/
def treeLit : List Char :=
  "/tree/".data

/-- Anchored match of `r'(https://github.com/[\w\-_]+/[\w\-_]+)/tree/'`
against the start of the URL, returning group 1 on success.  Because the
character class excludes `/` and each literal after a class starts with
`/`, the regex's greedy matching with backtracking is equivalent to this
maximal-munch scan. -/
def matchTree (cs : List Char) : Option (List Char) :=
  match dropLit ghPre cs with
  | none => none
  | some r1 =>
    let owner := r1.takeWhile isWordChar
    match r1.dropWhile isWordChar with
    | [] => none
    | d :: r3 =>
      if owner.isEmpty then none
      else if d == '/' then
        let repo := r3.takeWhile isWordChar
        let r4 := r3.dropWhile isWordChar
        if repo.isEmpty then none
        else if startsLit treeLit r4 then some (ghPre ++ owner ++ d :: repo)
        else none
      else none

/-- Embedding of `Git.fixup_url` (src/crate_inspector.py lines 203-217):
return the bare-repository group when the browsable-tree pattern matches,
otherwise the URL unchanged. -/
def fixup_url (url : String) : String :=
  match matchTree url.data with
  | some stem => String.mk stem
  | none => url

end CrateInspector

open CrateInspector

/-- Accumulator characterisation of the `search_blobs` fold: it adds the
list length to the first component and the number of elements failing `q`
to the second. -/
theorem scan_foldl_eq {α : Type} (q : α → Bool) (l : List α) (a b : Nat) :
    l.foldl (fun acc f => (acc.1 + 1, if q f then acc.2 else acc.2 + 1)) (a, b)
      = (a + l.length, b + (l.filter (fun f => !(q f))).length) := by
  induction l generalizing a b with
  | nil => simp
  | cons x xs ih =>
    by_cases h : q x = true
    · simp [h, ih, Nat.add_assoc, Nat.add_comm 1]
    · simp only [Bool.not_eq_true] at h
      simp [h, ih, Nat.add_assoc, Nat.add_comm 1]

/-- Claim C2: for every byte string with no CRLF pair, `hash_blob` returns
exactly one hash, the digest of `"blob "` ++ the decimal byte length ++ a
NUL byte ++ the bytes themselves. -/
theorem hash_blob_single (sha1 : List Nat → String) (data : List Nat)
    (h : containsCRLF data = false) :
    hash_blob sha1 data
      = [sha1 ((asciiBytes "blob " ++ decBytes data.length ++ [0]) ++ data)] := by
  simp [hash_blob, h, hashit, blobStuff]

/-- Claim C2 witness: evaluated at the concrete CRLF-free byte string
`[104, 105]` with a concrete digest function. -/
theorem hash_blob_single_witness :
    hash_blob (fun _ => "d") [104, 105]
      = [(fun _ => "d") ((asciiBytes "blob " ++ decBytes ([104, 105] : List Nat).length ++ [0]) ++ [104, 105])] :=
  hash_blob_single (fun _ => "d") [104, 105] rfl

/-- Claim C3: for every byte string containing a CRLF pair, `hash_blob`
returns exactly two hashes, raw-bytes hash first, the second computed over
the bytes with each CRLF pair collapsed to a bare LF. -/
theorem hash_blob_pair (sha1 : List Nat → String) (data : List Nat)
    (h : containsCRLF data = true) :
    hash_blob sha1 data
      = [sha1 ((asciiBytes "blob " ++ decBytes data.length ++ [0]) ++ data),
         sha1 ((asciiBytes "blob " ++ decBytes (replaceCRLF data).length ++ [0]) ++ replaceCRLF data)] := by
  simp [hash_blob, h, hashit, blobStuff]

/-- Claim C3 witness: evaluated at the concrete byte string `[13, 10, 65]`,
which contains one CRLF pair. -/
theorem hash_blob_pair_witness :
    hash_blob (fun _ => "d") [13, 10, 65]
      = [(fun _ => "d") ((asciiBytes "blob " ++ decBytes ([13, 10, 65] : List Nat).length ++ [0]) ++ [13, 10, 65]),
         (fun _ => "d") ((asciiBytes "blob " ++ decBytes (replaceCRLF [13, 10, 65]).length ++ [0]) ++ replaceCRLF [13, 10, 65])] :=
  hash_blob_pair (fun _ => "d") [13, 10, 65] rfl

/-- Claim C1: `search_blobs` examines every archive member matching the
source-file pattern (the reported file count equals the number of matching
members, with no short-circuit at the first miss), counts a file as
unmatched exactly when none of its candidate hashes resolves via the
`blob_exists` query, and returns the all-present verdict `true` if and only
if the number of unmatched files is zero. -/
theorem search_blobs_complete (sha1 : List Nat → String) (ex : String → Bool)
    (members : List (String × List Nat)) :
    (search_blobs sha1 ex members).1 = (examine_files members).length ∧
    (search_blobs sha1 ex members).2.1
      = ((examine_files members).filter (fun f => !(blobFound sha1 ex f.2))).length ∧
    ((search_blobs sha1 ex members).2.2 = true ↔
      ((examine_files members).filter (fun f => !(blobFound sha1 ex f.2))).length = 0) := by
  have h := scan_foldl_eq (fun f : String × List Nat => blobFound sha1 ex f.2)
    (examine_files members) 0 0
  simp only [search_blobs, h, Nat.zero_add, beq_iff_eq]
  exact ⟨trivial, trivial, trivial⟩

/-- Claim C7: the or-chain of `match_tags` tests the four candidate tag
names in the fixed priority order of `candidateTags` and stops at the first
candidate present in the tag list (`matchedCandidateIdx` equals the first
index whose candidate is contained in the tags); `match_tags` succeeds
exactly when some candidate stops the chain; and for version `1.2.3` of
package `foo` with tag list `["v1.2.3"]` the match succeeds via the second
candidate (index 1), never the first. -/
theorem match_tags_priority :
    (∀ nn vv tags, matchedCandidateIdx nn vv tags
        = (candidateTags nn vv).findIdx? (fun t => tags.contains t)) ∧
    (∀ nn vv tags, match_tags nn vv tags = (matchedCandidateIdx nn vv tags).isSome) ∧
    matchedCandidateIdx "foo" "1.2.3" ["v1.2.3"] = some 1 := by
  refine ⟨fun nn vv tags => ?_, fun nn vv tags => ?_, by decide⟩ <;>
  · by_cases h0 : vv ∈ tags <;>
      by_cases h1 : ("v" ++ vv) ∈ tags <;>
        by_cases h2 : (nn ++ "-" ++ vv) ∈ tags <;>
          by_cases h3 : (nn ++ "-v" ++ vv) ∈ tags <;>
            simp [matchedCandidateIdx, match_tags, try_match, candidateTags,
              h0, h1, h2, h3]

/-- Claim C8: the version resolver (`latest_version` composed with
`try_semver`) fails exactly on the empty collection: for every non-empty
list of version strings, however malformed, it returns a value. -/
theorem resolver_none_iff_empty (ss : List String) :
    resolveLatest ss = none ↔ ss = [] := by
  cases ss <;> simp [resolveLatest, latest_version]

/-- Claim C9 counterexample: with input `["0.0.0", "bogus"]` the malformed
string `"bogus"` receives the sentinel `0.0.0`, ties with the well-formed
`"0.0.0"` under version precedence, and wins the raw-string tie-break, so
it sorts first (not last) and is returned: the claim that malformed strings
sort last for every input collection is false. -/
theorem malformed_not_last :
    parseSemVer "bogus" = none ∧ resolveLatest ["0.0.0", "bogus"] = some "bogus" := by
  exact ⟨by decide, by decide⟩

/-- Claim C9 (amended): version strings that fail to parse are assigned the
sentinel `0.0.0`, which sorts below every entry whose parsed value is
strictly greater than the sentinel — but on parsed-value ties the
descending raw-string order decides, so a malformed entry need not sort
last.  The resolver returns the raw string of the maximal element under
the descending (parsed-value, raw-string) ordering; in particular from
`["1.0.0", "bogus", "2.0.0-beta", "1.9.9"]` it selects `"2.0.0-beta"`. -/
theorem sentinel_sorts_below_greater :
    (∀ s, parseSemVer s = none → try_semver s = SEMVER_PLACEHOLDER) ∧
    (∀ s t v, parseSemVer t = some v → cmpSemVer SEMVER_PLACEHOLDER v = Ordering.lt →
      versionPairLt (SEMVER_PLACEHOLDER, s) (v, t) = true) ∧
    resolveLatest ["1.0.0", "bogus", "2.0.0-beta", "1.9.9"] = some "2.0.0-beta" := by
  refine ⟨fun s h => ?_, fun s t v hp hlt => ?_, by decide⟩
  · simp [try_semver, h]
  · simp [versionPairLt, hlt]

/-- Claim C9 (amended) witness: the sentinel assignment and the
below-greater ordering evaluated at the concrete strings `"bogus"` and
`"1.0.0"`. -/
theorem sentinel_sorts_below_greater_witness :
    try_semver "bogus" = SEMVER_PLACEHOLDER ∧
    versionPairLt (SEMVER_PLACEHOLDER, "bogus") (⟨1, 0, 0, none, none⟩, "1.0.0") = true :=
  ⟨sentinel_sorts_below_greater.1 "bogus" (by decide),
   sentinel_sorts_below_greater.2.1 "bogus" "1.0.0" ⟨1, 0, 0, none, none⟩
     (by decide) (by decide)⟩

/-- Claim C4: when the shallow clone succeeds (commit metadata extracted,
git shallow clone and tag reading succeed) and the blob scan against the
shallow clone finds every source file's candidates present, `do_verify`
terminates with the blobs-all-present outcome from the shallow clone and
the full-clone fallback is never invoked (`fullCloneCalls = 0`) —
regardless of whether the tag correlation matched (`e.tagMatched` is
unconstrained). -/
theorem shallow_success_no_fallback (e : Env)
    (hurl : e.urlValid = true) (hdl : e.download = DlResult.success)
    (har : e.archiveOk = true) (hmeta : e.commitMeta = true)
    (hgit : e.shallowGitOk = true) (htags : e.tagsReadOk = true)
    (hblobs : e.blobsShallowAll = true) :
    do_verify e = Except.ok ⟨Outcome.blobsAllPresentShallow, 1, 0⟩ := by
  simp [do_verify, shallowPhase, hurl, hdl, har, hmeta, hgit, htags, hblobs]

/-- Claim C4 witness: a concrete environment whose tag correlation did NOT
match (`tagMatched = false`) still ends blobs-all-present with zero
full-clone calls. -/
theorem shallow_success_no_fallback_witness :
    do_verify ⟨true, DlResult.success, true, true, true, true, false, true, false, false⟩
      = Except.ok ⟨Outcome.blobsAllPresentShallow, 1, 0⟩ :=
  shallow_success_no_fallback
    ⟨true, DlResult.success, true, true, true, true, false, true, false, false⟩
    rfl rfl rfl rfl rfl rfl rfl

/-- Claim C5: when the embedded provenance metadata is absent or malformed
(`commitMeta = false`), `do_verify` abandons the shallow path entirely (no
git-level shallow clone is started) and proceeds directly to the full-clone
fallback (`fullCloneCalls = 1`), returning a per-package outcome rather
than aborting the run. -/
theorem missing_meta_goes_to_fallback (e : Env)
    (hurl : e.urlValid = true) (hdl : e.download = DlResult.success)
    (har : e.archiveOk = true) (hmeta : e.commitMeta = false) :
    do_verify e
      = Except.ok ⟨(if e.fullCloneOk then
                      (if e.blobsFullAll then Outcome.blobsAllPresentFull
                       else Outcome.blobsMissingFull)
                    else Outcome.cloneFailed), 0, 1⟩ := by
  by_cases hf : e.fullCloneOk = true <;>
    by_cases hb : e.blobsFullAll = true <;>
      simp_all [do_verify, shallowPhase]

/-- Claim C5 witness: concrete environment with missing metadata; the
package ends with the full-clone fallback invoked once and no shallow
clone started. -/
theorem missing_meta_goes_to_fallback_witness :
    do_verify ⟨true, DlResult.success, true, false, true, true, true, true, true, true⟩
      = Except.ok ⟨(if true then (if true then Outcome.blobsAllPresentFull
                    else Outcome.blobsMissingFull) else Outcome.cloneFailed), 0, 1⟩ :=
  missing_meta_goes_to_fallback
    ⟨true, DlResult.success, true, false, true, true, true, true, true, true⟩
    rfl rfl rfl rfl

/-- Claim C6: an HTTP 403 on the artifact fetch terminates verification for
that package only, with the fetch-denied outcome, and the batch continues
with the remaining packages; every other fetch failure propagates past the
per-package boundary and aborts the entire run. -/
theorem fetch_failure_scope (e : Env) (rest : List Env)
    (hurl : e.urlValid = true) :
    (e.download = DlResult.denied →
      do_verify e = Except.ok ⟨Outcome.fetchDenied, 0, 0⟩ ∧
      runAll (e :: rest) = (runAll rest).map (fun l => Outcome.fetchDenied :: l)) ∧
    (e.download = DlResult.fatal →
      do_verify e = Except.error Fatal.downloadFailed ∧
      runAll (e :: rest) = Except.error Fatal.downloadFailed) := by
  constructor
  · intro hdl
    have hv : do_verify e = Except.ok ⟨Outcome.fetchDenied, 0, 0⟩ := by
      simp [do_verify, hurl, hdl]
    refine ⟨hv, ?_⟩
    cases hr : runAll rest <;> simp [runAll, hv, hr, Except.map]
  · intro hdl
    have hv : do_verify e = Except.error Fatal.downloadFailed := by
      simp [do_verify, hurl, hdl]
    exact ⟨hv, by simp [runAll, hv]⟩

/-- Claim C6 witness: the 403 case at a concrete one-package batch and the
fatal case at another; evaluated concretely. -/
theorem fetch_failure_scope_witness :
    (do_verify ⟨true, DlResult.denied, true, true, true, true, true, true, true, true⟩
        = Except.ok ⟨Outcome.fetchDenied, 0, 0⟩ ∧
      runAll [⟨true, DlResult.denied, true, true, true, true, true, true, true, true⟩]
        = (runAll []).map (fun l => Outcome.fetchDenied :: l)) ∧
    (do_verify ⟨true, DlResult.fatal, true, true, true, true, true, true, true, true⟩
        = Except.error Fatal.downloadFailed ∧
      runAll [⟨true, DlResult.fatal, true, true, true, true, true, true, true, true⟩]
        = Except.error Fatal.downloadFailed) :=
  ⟨(fetch_failure_scope ⟨true, DlResult.denied, true, true, true, true, true, true, true, true⟩
      [] rfl).1 rfl,
   (fetch_failure_scope ⟨true, DlResult.fatal, true, true, true, true, true, true, true, true⟩
      [] rfl).2 rfl⟩

/-- Stripping a literal head disassembles an append on the same head. -/
theorem dropLit_self (p r : List Char) : dropLit p (p ++ r) = some r := by
  induction p with
  | nil => rfl
  | cons c cs ih => simp [dropLit, ih]

/-- Everything `takeWhile` keeps satisfies the predicate. -/
theorem all_mem_takeWhile {α : Type} (p : α → Bool) (l : List α) :
    ∀ x ∈ l.takeWhile p, p x = true := by
  induction l with
  | nil => simp
  | cons c cs ih =>
    by_cases h : p c = true
    · simp only [List.takeWhile_cons_of_pos h, List.mem_cons]
      rintro x (rfl | hx)
      · exact h
      · exact ih x hx
    · simp [List.takeWhile_cons_of_neg h]

/-- A word run followed by a non-word character splits an append exactly at
that character. -/
theorem wordRun_split (l r : List Char) (d : Char)
    (hl : ∀ x ∈ l, isWordChar x = true) (hd : isWordChar d = false) :
    (l ++ d :: r).takeWhile isWordChar = l ∧
      (l ++ d :: r).dropWhile isWordChar = d :: r := by
  induction l with
  | nil =>
    simp [List.takeWhile_cons, List.dropWhile_cons, hd]
  | cons c cs ih =>
    have hc : isWordChar c = true := hl c (by simp)
    have ih2 := ih (fun x hx => hl x (by simp [hx]))
    simp [List.takeWhile_cons_of_pos hc, List.dropWhile_cons_of_pos hc, ih2.1, ih2.2]

/-- A run that is all word characters is kept whole. -/
theorem wordRun_whole (l : List Char) (hl : ∀ x ∈ l, isWordChar x = true) :
    l.takeWhile isWordChar = l ∧ l.dropWhile isWordChar = [] := by
  induction l with
  | nil => simp
  | cons c cs ih =>
    have hc : isWordChar c = true := hl c (by simp)
    have ih2 := ih (fun x hx => hl x (by simp [hx]))
    simp [List.takeWhile_cons_of_pos hc, List.dropWhile_cons_of_pos hc, ih2.1, ih2.2]

/-- A successful `matchTree` yields the fixed stem shape: the literal head,
a non-empty word-character owner, a slash, and a non-empty word-character
repository segment. -/
theorem matchTree_shape (cs stem : List Char) (h : matchTree cs = some stem) :
    ∃ owner repo, stem = ghPre ++ owner ++ '/' :: repo ∧
      owner ≠ [] ∧ (∀ x ∈ owner, isWordChar x = true) ∧
      repo ≠ [] ∧ (∀ x ∈ repo, isWordChar x = true) := by
  cases hdl : dropLit ghPre cs with
  | none => simp [matchTree, hdl] at h
  | some r1 =>
    cases hdw : r1.dropWhile isWordChar with
    | nil => simp [matchTree, hdl, hdw] at h
    | cons d r3 =>
      simp only [matchTree, hdl, hdw] at h
      split_ifs at h with hoe hds hre hts
      · simp only [Option.some.injEq] at h
        refine ⟨r1.takeWhile isWordChar, r3.takeWhile isWordChar, ?_, ?_, ?_, ?_, ?_⟩
        · have hd' : d = '/' := by
            have := hds
            simpa [beq_iff_eq] using this
          rw [← h, hd']
        · exact (List.isEmpty_eq_false).1 (by simpa using hoe)
        · exact all_mem_takeWhile isWordChar r1
        · exact (List.isEmpty_eq_false).1 (by simpa using hre)
        · exact all_mem_takeWhile isWordChar r3

/-- The stem produced by a match never matches again: after the owner and
repository segments the stem ends, so the required `/tree/` literal cannot
follow. -/
theorem matchTree_stem_none (owner repo : List Char)
    (ho : owner ≠ []) (how : ∀ x ∈ owner, isWordChar x = true)
    (hr : repo ≠ []) (hrw : ∀ x ∈ repo, isWordChar x = true) :
    matchTree (ghPre ++ owner ++ '/' :: repo) = none := by
  have hslash : isWordChar '/' = false := by decide
  have h1 : dropLit ghPre (ghPre ++ (owner ++ '/' :: repo))
      = some (owner ++ '/' :: repo) := dropLit_self ghPre (owner ++ '/' :: repo)
  have h2 := wordRun_split owner repo '/' how hslash
  have h3 := wordRun_whole repo hrw
  have hone : (owner.isEmpty) = false := by simpa using ho
  have hrne : (repo.isEmpty) = false := by simpa using hr
  simp [matchTree, h1, h2.1, h2.2, h3.1, h3.2, hone, hrne, startsLit, treeLit, dropLit]

/-- Claim C10: `fixup_url` returns every URL unchanged unless the anchored
`https://github.com/{owner}/{repo}/tree/...` pattern matches, and it is
idempotent: applying it twice yields the same result as applying it once. -/
theorem fixup_url_idempotent :
    (∀ url, matchTree url.data = none → fixup_url url = url) ∧
    (∀ url, fixup_url (fixup_url url) = fixup_url url) := by
  have hid : ∀ url, matchTree url.data = none → fixup_url url = url := by
    intro url h
    simp [fixup_url, h]
  refine ⟨hid, fun url => ?_⟩
  cases h : matchTree url.data with
  | none =>
    rw [hid url h, hid url h]
  | some stem =>
    have hfu : fixup_url url = String.mk stem := by simp [fixup_url, h]
    obtain ⟨owner, repo, hstem, ho, how, hrn, hrw⟩ := matchTree_shape url.data stem h
    have hdata : (String.mk stem).data = stem := rfl
    have hnone : matchTree (String.mk stem).data = none := by
      rw [hdata, hstem]
      exact matchTree_stem_none owner repo ho how hrn hrw
    rw [hfu, hid (String.mk stem) hnone]

/-- Claim C10 witness: a non-matching URL is returned unchanged, and a
concrete browsable-tree URL reaches a fixed point after one application. -/
theorem fixup_url_idempotent_witness :
    fixup_url "hello" = "hello" ∧
    fixup_url (fixup_url "https://github.com/a/b/tree/main/src")
      = fixup_url "https://github.com/a/b/tree/main/src" :=
  ⟨fixup_url_idempotent.1 "hello" (by decide),
   fixup_url_idempotent.2 "https://github.com/a/b/tree/main/src"⟩
